import Mathlib

/-!
Verification of the mup message bus (package `mup`).

This file gives a shallow embedding of the parts of the source relevant to
the durable-message-bus claims: the plugin dispatch loop and its rollback
protocol (`plugin.go`), the plugin refresh/supervision pass (`plugin.go`),
the outbound account loop and tail (`accountManager` code), the LDAP
connection lookup (`plugin.go`), and the LDAP filter escaping
(`ldap/ldap.go`).

Record ids are `bson.ObjectId` values in the source, globally unique and
monotonically increasing in insertion order, compared bytewise; they are
embedded as `Nat`.  Raw configuration blobs (`bson.Raw.Data`) are embedded
as `List Nat` byte strings.  External collaborators (the command-schema
parser, target matching, the live LDAP connection handle) are parameters.
-/

/-- Message mirrors the fields of mup's `Message` record used by the code
under study: `Id`, `Account`, `Command`, `Text`, `BotText` (the text as
addressed to the bot) and `AsNick`.  `Text` is kept as a character list
because the account loop inspects it bytewise. -/
structure Message where
  id      : Nat
  account : String
  command : String
  text    : List Char
  botText : String
  asNick  : String

/-- Modelled from the spec: the reply-pong protocol verb (the "pong
command" marker of §4.2/§4.4); its definition lives in the IRC codec,
which is outside the repository slice under study. -/
def cmdPong : String := "PONG"

/-- The reserved account marker placed on wake records, from the
`rollbackAccount` constant in `plugin.go`. -/
def rollbackAccount : String := "<rollback>"

/-- The payload text placed on wake records, from the `rollbackText`
constant in `plugin.go`. -/
def rollbackText : List Char := ['<', 'r', 'o', 'l', 'l', 'b', 'a', 'c', 'k', '>']

/-- The rollback check at the top of `pluginManager.tail`'s NextTail loop
(plugin.go): a rollback request older than the current position lowers the
position, any other request leaves it unchanged. -/
def tailCheckRollback (lastId rollbackId : Nat) : Nat :=
  if rollbackId < lastId then rollbackId else lastId

/-- What the tail loop does after observing a rollback request while
blocked delivering a record (plugin.go, the DeliverMsg select): restart
the tail at the rollback position, or resume the blocked delivery. -/
inductive TailAction where
  | restartTail
  | resumeDelivery
deriving DecidableEq, Repr

/-- The rollback case of the DeliverMsg select in `pluginManager.tail`
(plugin.go): if the requested id is older than the current position the
position is lowered, the iterator closed and tailing restarted; otherwise
the request is ignored and delivery of the blocked record resumes. -/
def tailDeliverRollback (lastId rollbackId : Nat) : Nat × TailAction :=
  if rollbackId < lastId then (rollbackId, .restartTail)
  else (lastId, .resumeDelivery)

/-- C1: at both observation sites of `pluginManager.tail` a rollback
request with value R yields tail position min(R, current): the position is
lowered only when R is strictly older, never increased, and a non-older R
is ignored with the blocked delivery resuming. -/
theorem C1_tail_rollback_min (cur r : Nat) :
    tailCheckRollback cur r = min r cur
    ∧ (tailDeliverRollback cur r).1 = min r cur
    ∧ tailCheckRollback cur r ≤ cur
    ∧ (tailDeliverRollback cur r).1 ≤ cur
    ∧ (r < cur → tailDeliverRollback cur r = (r, .restartTail))
    ∧ (¬ r < cur → tailDeliverRollback cur r = (cur, .resumeDelivery)) := by
  unfold tailCheckRollback tailDeliverRollback
  refine ⟨by split <;> omega, ?_, by split <;> omega, ?_, ?_, ?_⟩
  · split
    · show r = min r cur; omega
    · show cur = min r cur; omega
  · split
    · show r ≤ cur; omega
    · show cur ≤ cur; omega
  · intro h; rw [if_pos h]
  · intro h; rw [if_neg h]

/-- Witness for C1 at current position 7 and rollback requests 3 and 9. -/
theorem C1_tail_rollback_min_witness :
    tailCheckRollback 7 3 = min 3 7
    ∧ tailDeliverRollback 7 9 = (7, .resumeDelivery) := by
  refine ⟨(C1_tail_rollback_min 7 3).1, (C1_tail_rollback_min 7 9).2.2.2.2.2 ?_⟩
  decide

/-- Observable effects of the plugin dispatch loop body in
`pluginManager.loop` and of the `pluginState.handle*` methods
(plugin.go).  `setLastId` is the in-memory `state.info.LastId = msg.Id`
assignment, `invokeHandle` the `state.handle(msg, cmdName)` call,
`invokeOutgoing`/`invokeCommand`/`invokeMessage` the calls into the
plugin's capability interfaces, `sendReply` the `plugger.Sendf(msg, ...)`
reply addressed to the sender of the message with the given id, and
`persistLastId` the `plugins.UpdateId(name, {$set: {lastid: id}})`
database write. -/
inductive Event where
  | setLastId (plugin : String) (id : Nat)
  | invokeHandle (plugin : String) (id : Nat)
  | invokeOutgoing (plugin : String) (id : Nat)
  | invokeCommand (plugin : String) (id : Nat)
  | invokeMessage (plugin : String) (id : Nat)
  | sendReply (plugin : String) (replyToId : Nat) (text : String)
  | persistLastId (plugin : String) (id : Nat)
deriving DecidableEq, Repr

/-- PluginState carries what `pluginState` and its `pluginInfo` hold for
dispatch (plugin.go): the plugin name, the in-memory `LastId`, and the
external collaborators as oracles — `target msg` stands for
`state.plugger.Target(msg) != nil`, the three capability flags for the
`MessageHandler`/`OutgoingHandler`/`CommandHandler` interface assertions,
`knownCommand c` for `state.spec.Commands.Command(c) != nil`, and
`parse c t` for `cmdSchema.Parse(t)` of the schema of command `c`. -/
structure PluginState where
  name : String
  lastId : Nat
  target : Message → Bool
  isMessageHandler : Bool
  isOutgoingHandler : Bool
  isCommandHandler : Bool
  knownCommand : String → Bool
  parse : String → String → Except String Unit

/-- The body of `pluginState.handleCommand` (plugin.go): nothing happens
without a command name, a CommandHandler capability and a known schema; a
parse failure is answered with an "Oops: " reply to the sender and the
handler is not invoked; otherwise the handler runs. -/
def handleCommand (st : PluginState) (msg : Message) (cmdName : String) : List Event :=
  if cmdName = "" then []
  else if st.isCommandHandler = false then []
  else if st.knownCommand cmdName = false then []
  else
    match st.parse cmdName msg.botText with
    | .error e => [.sendReply st.name msg.id ("Oops: " ++ e)]
    | .ok _ => [.invokeCommand st.name msg.id]

/-- The body of `pluginState.handleMessage` (plugin.go): invoked only when
the plugin implements MessageHandler. -/
def handleMessage (st : PluginState) (msg : Message) : List Event :=
  if st.isMessageHandler then [.invokeMessage st.name msg.id] else []

/-- The body of `pluginState.handleOutgoing` (plugin.go): invoked only
when the plugin implements OutgoingHandler. -/
def handleOutgoing (st : PluginState) (msg : Message) : List Event :=
  if st.isOutgoingHandler then [.invokeOutgoing st.name msg.id] else []

/-- The body of `pluginState.handle` (plugin.go): a record whose AsNick is
empty is the bot's own outgoing echo and goes to the outgoing observer;
any other record goes through command handling then message handling. -/
def handle (st : PluginState) (msg : Message) (cmdName : String) : List Event :=
  if msg.asNick = "" then handleOutgoing st msg
  else handleCommand st msg cmdName ++ handleMessage st msg

/-- The per-plugin step of the `case msg := <-m.incoming` arm of
`pluginManager.loop` (plugin.go): skip when the record id is not newer
than the plugin's LastId or the plugin's target does not match; otherwise
set the in-memory LastId, call `state.handle`, then persist the LastId. -/
def dispatchOne (st : PluginState) (msg : Message) (cmdName : String) :
    PluginState × List Event :=
  if msg.id ≤ st.lastId ∨ st.target msg = false then (st, [])
  else
    let st2 := { st with lastId := msg.id }
    (st2, .setLastId st.name msg.id :: .invokeHandle st.name msg.id ::
      (handle st2 msg cmdName ++ [.persistLastId st.name msg.id]))

/-- The iteration over `m.plugins` in `pluginManager.loop` (plugin.go),
with the map's unspecified iteration order fixed as the list order. -/
def dispatchAll : List PluginState → Message → String → List PluginState × List Event
  | [], _, _ => ([], [])
  | st :: rest, msg, cmdName =>
    let one := dispatchOne st msg cmdName
    let more := dispatchAll rest msg cmdName
    (one.1 :: more.1, one.2 ++ more.2)

/-- The `case msg := <-m.incoming` arm of `pluginManager.loop`
(plugin.go): a pong-command record is dropped before any plugin is
considered; otherwise the command name is recognized once (the external
`schema.CommandName`, passed here as the oracle `commandName`) and every
active plugin is evaluated. -/
def loopBody (commandName : String → String) (plugins : List PluginState)
    (msg : Message) : List PluginState × List Event :=
  if msg.command = cmdPong then (plugins, [])
  else dispatchAll plugins msg (commandName msg.botText)

/-- C2: for a record that reaches per-plugin evaluation (wake/pong records
are dropped earlier, see C4), each active plugin's handlers are invoked
exactly when the record id is strictly newer than the plugin's lastSeenId
and the plugin's current target matches; a record failing either test
leaves that plugin's state untouched and produces no effect for it. -/
theorem C2_dispatch_iff (commandName : String → String)
    (plugins : List PluginState) (msg : Message) (st : PluginState)
    (hp : msg.command ≠ cmdPong) :
    loopBody commandName plugins msg
      = dispatchAll plugins msg (commandName msg.botText)
    ∧ (Event.invokeHandle st.name msg.id ∈ (dispatchOne st msg (commandName msg.botText)).2
        ↔ st.lastId < msg.id ∧ st.target msg = true)
    ∧ (¬ (st.lastId < msg.id ∧ st.target msg = true) →
        dispatchOne st msg (commandName msg.botText) = (st, [])) := by
  refine ⟨by simp [loopBody, hp], ?_, ?_⟩
  · unfold dispatchOne
    split
    · rename_i h
      simp only [List.not_mem_nil, false_iff]
      intro hc
      rcases h with h | h
      · omega
      · rw [hc.2] at h; exact Bool.noConfusion h
    · rename_i h
      rw [not_or] at h
      obtain ⟨h1, h2⟩ := h
      have h2' : st.target msg = true := by
        revert h2; cases st.target msg <;> simp
      simp only [List.mem_cons]
      exact iff_of_true (Or.inr (Or.inl trivial)) ⟨by omega, h2'⟩
  · intro h
    unfold dispatchOne
    split
    · rfl
    · rename_i hcond
      rw [not_or] at hcond
      obtain ⟨h1, h2⟩ := hcond
      have h2' : st.target msg = true := by
        revert h2; cases st.target msg <;> simp
      exact absurd ⟨by omega, h2'⟩ h

/-- Witness for C2: a plugin at position 3 with an always-matching target,
offered a non-pong record with id 5, is dispatched; the same plugin is not
dispatched a record with id 2. -/
theorem C2_dispatch_iff_witness :
    (Event.invokeHandle "p" 5 ∈
        (dispatchOne ⟨"p", 3, fun _ => true, true, false, false,
          fun _ => false, fun _ _ => .ok ()⟩
          ⟨5, "acc", "PRIVMSG", [], "hello", "mup"⟩ "").2
      ↔ (3 : Nat) < 5 ∧ (fun (_ : Message) => true) ⟨5, "acc", "PRIVMSG", [], "hello", "mup"⟩ = true)
    ∧ dispatchOne ⟨"p", 3, fun _ => true, true, false, false,
          fun _ => false, fun _ _ => .ok ()⟩
        ⟨2, "acc", "PRIVMSG", [], "hello", "mup"⟩ ""
      = (⟨"p", 3, fun _ => true, true, false, false,
          fun _ => false, fun _ _ => .ok ()⟩, []) := by
  constructor
  · exact (C2_dispatch_iff (fun _ => "") []
      ⟨5, "acc", "PRIVMSG", [], "hello", "mup"⟩
      ⟨"p", 3, fun _ => true, true, false, false,
        fun _ => false, fun _ _ => .ok ()⟩ (by decide)).2.1
  · exact (C2_dispatch_iff (fun _ => "") []
      ⟨2, "acc", "PRIVMSG", [], "hello", "mup"⟩
      ⟨"p", 3, fun _ => true, true, false, false,
        fun _ => false, fun _ _ => .ok ()⟩ (by decide)).2.2 (by decide)

/-- C4: a record whose command is the pong marker — in particular the wake
record the rollback coordinator inserts with the reserved rollback account
— is dropped by the dispatch loop before any plugin is considered: no
handler event is produced and no plugin state changes. -/
theorem C4_wake_filtered (commandName : String → String)
    (plugins : List PluginState) (msg : Message)
    (h : msg.command = cmdPong) :
    loopBody commandName plugins msg = (plugins, []) := by
  simp [loopBody, h]

/-- Witness for C4: the exact wake record shape inserted by
`refreshPlugins` (command `cmdPong`, account `rollbackAccount`, text
`rollbackText`) produces no events against an active plugin. -/
theorem C4_wake_filtered_witness :
    loopBody (fun _ => "")
        [⟨"p", 0, fun _ => true, true, true, true, fun _ => true, fun _ _ => .ok ()⟩]
        ⟨9, rollbackAccount, cmdPong, rollbackText, "", ""⟩
      = ([⟨"p", 0, fun _ => true, true, true, true, fun _ => true, fun _ _ => .ok ()⟩], []) :=
  C4_wake_filtered (fun _ => "")
    [⟨"p", 0, fun _ => true, true, true, true, fun _ => true, fun _ _ => .ok ()⟩]
    ⟨9, rollbackAccount, cmdPong, rollbackText, "", ""⟩ rfl

/-- Position of the first occurrence of an event in a trace. -/
def eventIdx (e : Event) (l : List Event) : Option Nat :=
  l.findIdx? (fun x => x == e)

/-- Whether the first occurrence of `a` comes before the first occurrence
of `b` in the trace `l` (false when either is absent). -/
def eventBefore (a b : Event) (l : List Event) : Bool :=
  match eventIdx a l, eventIdx b l with
  | some i, some j => decide (i < j)
  | _, _ => false

/-- A plugin with only the MessageHandler capability, sitting at position
0, used as a concrete dispatch scenario. -/
def msgHandlerPlugin : PluginState :=
  ⟨"p", 0, fun _ => true, true, false, false, fun _ => false, fun _ _ => .ok ()⟩

/-- A plain inbound chat record with id 5 addressed to the bot. -/
def sampleInbound : Message :=
  ⟨5, "acc", "PRIVMSG", ['h', 'i'], "hi", "mup"⟩

/-- Counterexample to C7: dispatching record 5 to a message-handling
plugin yields the trace [set lastSeenId, call handle, call
HandleMessage, persist lastSeenId] — the database persist of lastSeenId
occurs strictly after the handler invocation, so it does not happen
before the handlers are invoked as the claim states. -/
theorem C7_persist_order_counterexample :
    (loopBody (fun _ => "") [msgHandlerPlugin] sampleInbound).2
      = [.setLastId "p" 5, .invokeHandle "p" 5, .invokeMessage "p" 5, .persistLastId "p" 5]
    ∧ Event.persistLastId "p" 5 ∈ (loopBody (fun _ => "") [msgHandlerPlugin] sampleInbound).2
    ∧ Event.invokeMessage "p" 5 ∈ (loopBody (fun _ => "") [msgHandlerPlugin] sampleInbound).2
    ∧ eventBefore (.persistLastId "p" 5) (.invokeMessage "p" 5)
        ((loopBody (fun _ => "") [msgHandlerPlugin] sampleInbound).2) = false := by
  decide

/-- Events that stand for calls into a plugin's handlers (including the
`state.handle` entry itself and the reply sent on a parse failure). -/
def isInvocation : Event → Bool
  | .invokeHandle _ _ => true
  | .invokeOutgoing _ _ => true
  | .invokeCommand _ _ => true
  | .invokeMessage _ _ => true
  | .sendReply _ _ _ => true
  | _ => false

/-- Every event produced by `pluginState.handle` is a handler invocation
or a reply, never a position update or persist. -/
theorem handle_events_are_invocations (st : PluginState) (msg : Message)
    (cmdName : String) : ∀ e ∈ handle st msg cmdName, isInvocation e = true := by
  intro e he
  unfold handle handleOutgoing handleCommand handleMessage at he
  split at he
  · split at he
    · simp at he; subst he; rfl
    · simp at he
  · rw [List.mem_append] at he
    rcases he with he | he
    · split at he
      · simp at he
      · split at he
        · simp at he
        · split at he
          · simp at he
          · split at he <;> simp at he <;> subst he <;> rfl
    · split at he
      · simp at he; subst he; rfl
      · simp at he

/-- C7 amended: when a record is dispatched to a plugin, the in-memory
lastSeenId is updated to the record's id before the handlers are invoked,
and the update is persisted to the plugin's stored record after the
handlers return (not before, as originally claimed). -/
theorem C7_update_before_persist_after (st : PluginState) (msg : Message)
    (cmdName : String) (h1 : st.lastId < msg.id) (h2 : st.target msg = true) :
    (dispatchOne st msg cmdName).1.lastId = msg.id
    ∧ ∃ body,
        (dispatchOne st msg cmdName).2
          = .setLastId st.name msg.id :: body ++ [.persistLastId st.name msg.id]
        ∧ ∀ e ∈ body, isInvocation e = true := by
  unfold dispatchOne
  rw [if_neg (by rw [not_or]; exact ⟨by omega, by simp [h2]⟩)]
  refine ⟨rfl, .invokeHandle st.name msg.id :: handle { st with lastId := msg.id } msg cmdName,
    by simp, ?_⟩
  intro e he
  rcases List.mem_cons.mp he with he | he
  · subst he; rfl
  · exact handle_events_are_invocations _ msg cmdName e he

/-- Witness for the amended C7 at the concrete scenario of the
counterexample: lastSeenId becomes 5, and the trace is the mem-update,
then only invocations, then the persist. -/
theorem C7_update_before_persist_after_witness :
    (dispatchOne msgHandlerPlugin sampleInbound "").1.lastId = 5
    ∧ ∃ body,
        (dispatchOne msgHandlerPlugin sampleInbound "").2
          = .setLastId "p" 5 :: body ++ [.persistLastId "p" 5]
        ∧ ∀ e ∈ body, isInvocation e = true :=
  C7_update_before_persist_after msgHandlerPlugin sampleInbound ""
    (by decide) (by decide)

/-- C8: when a dispatched message names a command known to the plugin's
schema and parsing its arguments fails, the plugin receives no
HandleCommand call and a reply starting with "Oops: " carrying the parse
error is sent back to the sender of the originating message; the function
returns normally (the failure stays a user-visible reply). -/
theorem C8_parse_failure_reply (st : PluginState) (msg : Message)
    (cmdName e : String) (hc : cmdName ≠ "")
    (hh : st.isCommandHandler = true)
    (hk : st.knownCommand cmdName = true)
    (hp : st.parse cmdName msg.botText = .error e) :
    handleCommand st msg cmdName = [.sendReply st.name msg.id ("Oops: " ++ e)]
    ∧ Event.invokeCommand st.name msg.id ∉ handleCommand st msg cmdName := by
  have hmain : handleCommand st msg cmdName
      = [.sendReply st.name msg.id ("Oops: " ++ e)] := by
    unfold handleCommand
    rw [if_neg hc, hh, if_neg (by simp), hk, if_neg (by simp), hp]
  exact ⟨hmain, by rw [hmain]; simp⟩

/-- Witness for C8: a command-handling plugin whose schema knows "greet"
but whose parser rejects the arguments replies "Oops: bad arg" and gets
no HandleCommand call. -/
theorem C8_parse_failure_reply_witness :
    handleCommand
        ⟨"p", 0, fun _ => true, false, false, true,
          fun c => c = "greet", fun _ _ => .error "bad arg"⟩
        ⟨5, "acc", "PRIVMSG", [], "greet x", "mup"⟩ "greet"
      = [.sendReply "p" 5 "Oops: bad arg"]
    ∧ Event.invokeCommand "p" 5 ∉ handleCommand
        ⟨"p", 0, fun _ => true, false, false, true,
          fun c => c = "greet", fun _ _ => .error "bad arg"⟩
        ⟨5, "acc", "PRIVMSG", [], "greet x", "mup"⟩ "greet" :=
  C8_parse_failure_reply
    ⟨"p", 0, fun _ => true, false, false, true,
      fun c => c = "greet", fun _ _ => .error "bad arg"⟩
    ⟨5, "acc", "PRIVMSG", [], "greet x", "mup"⟩ "greet" "bad arg"
    (by decide) rfl (by simp) rfl

/-- PluginInfo mirrors the `pluginInfo` document of `plugin.go`: plugin
name (`_id`), the persisted last-seen id (`LastId`, `none` when the stored
ObjectId is absent or invalid), and the raw bytes of the config and
targets blobs. -/
structure PluginInfo where
  name : String
  lastId : Option Nat
  config : List Nat
  targets : List Nat
deriving DecidableEq, Repr

/-- RunState mirrors `pluginState.info` for a running plugin after
`startPlugin`: by then `LastId` is always a valid id. -/
structure RunState where
  name : String
  lastId : Nat
  config : List Nat
  targets : List Nat
deriving DecidableEq, Repr

/-- The `pluginChanged` predicate of `plugin.go`: byte inequality of
either the config blob or the targets blob. -/
def pluginChanged (a : RunState) (b : PluginInfo) : Bool :=
  a.config != b.config || a.targets != b.targets

/-- The `LastId` adjustment at the end of `pluginManager.startPlugin`
(plugin.go): an invalid persisted id, or one older than the rollback
floor (`bson.NewObjectIdWithTime(time.Now().Add(-rollbackLimit))`), is
replaced by the floor. -/
def startPluginLastId (persisted : Option Nat) (rollbackFloor : Nat) : Nat :=
  match persisted with
  | none => rollbackFloor
  | some v => if v < rollbackFloor then rollbackFloor else v

/-- The `pluginManager.startPlugin` path relevant to supervision
(plugin.go): fail when the plugin key is not registered, otherwise build
the running state from the stored document with the clamped `LastId`. -/
def startPlugin (registered : String → Bool) (rollbackFloor : Nat)
    (info : PluginInfo) : Option RunState :=
  if registered info.name then
    some ⟨info.name, startPluginLastId info.lastId rollbackFloor, info.config, info.targets⟩
  else none

/-- Observable effects of a `pluginManager.refreshPlugins` pass
(plugin.go): stopping a plugin instance, starting one (recording the
persisted id the document carried and the id the instance starts at),
inserting the wake record into the incoming collection, and sending the
rollback request on the rollback channel. -/
inductive REvent where
  | pluginStopped (name : String)
  | pluginStarted (name : String) (persisted : Option Nat) (started : Nat)
  | insertWake (account : String) (command : String) (text : List Char)
  | sendRollback (id : Nat)
deriving DecidableEq, Repr

/-- The running-set map lookup `m.plugins[info.Name]` (plugin.go). -/
def lookupRun (running : List RunState) (name : String) : Option RunState :=
  running.find? (fun st => st.name == name)

/-- The running-set map deletion `delete(m.plugins, info.Name)`
(plugin.go). -/
def removeRun (running : List RunState) (name : String) : List RunState :=
  running.filter (fun st => st.name != name)

/-- The accumulator threaded through the per-document loop of
`pluginManager.refreshPlugins` (plugin.go): the running map (as a list in
iteration order), the `seen` set, the `found` counter, the pending
`rollbackId` (`none` for the empty ObjectId), and the effects so far. -/
structure RefreshAcc where
  running : List RunState
  seen : List String
  found : Nat
  rollbackId : Option Nat
  events : List REvent
deriving DecidableEq, Repr

/-- The `rollbackId` update of `refreshPlugins` (plugin.go): take the
started instance's id when no id is pending yet or the pending one is
newer. -/
def obsMin (o : Option Nat) (l : Nat) : Option Nat :=
  match o with
  | none => some l
  | some r => if r > l then some l else some r

/-- The tail of the per-document loop body of `refreshPlugins`
(plugin.go): try to start the plugin from its document; on success add it
to the running set and fold its starting id into `rollbackId`. -/
def refreshStart (registered : String → Bool) (rollbackFloor : Nat)
    (acc : RefreshAcc) (info : PluginInfo) : RefreshAcc :=
  match startPlugin registered rollbackFloor info with
  | none => acc
  | some st =>
    { acc with
      running := acc.running ++ [st]
      events := acc.events ++ [.pluginStarted st.name info.lastId st.lastId]
      rollbackId := obsMin acc.rollbackId st.lastId }

/-- The per-document loop body of `refreshPlugins` (plugin.go): skip
documents the manager is configured to ignore; mark the name seen; a
known unchanged plugin is left alone; a known changed plugin is stopped
and removed, then (re)started; an unknown plugin is started. -/
def refreshStep (enabled registered : String → Bool) (rollbackFloor : Nat)
    (acc : RefreshAcc) (info : PluginInfo) : RefreshAcc :=
  if enabled info.name = false then acc
  else
    let acc1 := { acc with seen := acc.seen ++ [info.name] }
    match lookupRun acc1.running info.name with
    | some st =>
      let acc2 := { acc1 with found := acc1.found + 1 }
      if pluginChanged st info = false then acc2
      else
        refreshStart registered rollbackFloor
          { acc2 with
            running := removeRun acc2.running info.name
            events := acc2.events ++ [.pluginStopped info.name] } info
    | none => refreshStart registered rollbackFloor acc1 info

/-- The per-document loop of `refreshPlugins` (plugin.go) over all
fetched plugin documents, starting from the empty seen-set, a zero found
counter and no pending rollback. -/
def refreshMain (enabled registered : String → Bool) (rollbackFloor : Nat)
    (running : List RunState) (infos : List PluginInfo) : RefreshAcc :=
  infos.foldl (refreshStep enabled registered rollbackFloor)
    ⟨running, [], 0, none, []⟩

/-- The removal sweep of `refreshPlugins` (plugin.go): when the found
counter differs from the initially known count, stop and remove every
running plugin whose name was not seen in the fetched documents. -/
def refreshSweep (known : Nat) (acc : RefreshAcc) : RefreshAcc :=
  if known ≠ acc.found then
    { acc with
      running := acc.running.filter (fun st => acc.seen.contains st.name)
      events := acc.events ++
        (acc.running.filter (fun st => !(acc.seen.contains st.name))).map
          (fun st => .pluginStopped st.name) }
  else acc

/-- The rollback submission at the end of `refreshPlugins` (plugin.go):
when any plugin was (re)started, insert the wake record into the incoming
collection and then send the oldest observed starting id to the tail
loop. -/
def refreshFinish (acc : RefreshAcc) : List RunState × List REvent :=
  match acc.rollbackId with
  | none => (acc.running, acc.events)
  | some r =>
    (acc.running,
      acc.events ++ [.insertWake rollbackAccount cmdPong rollbackText, .sendRollback r])

/-- A full `pluginManager.refreshPlugins` pass (plugin.go). -/
def refreshPlugins (enabled registered : String → Bool) (rollbackFloor : Nat)
    (running : List RunState) (infos : List PluginInfo) :
    List RunState × List REvent :=
  refreshFinish (refreshSweep running.length
    (refreshMain enabled registered rollbackFloor running infos))

/-- The starting positions recorded in a refresh pass's event trace. -/
def startedIds (evs : List REvent) : List Nat :=
  evs.filterMap (fun e =>
    match e with
    | .pluginStarted _ _ l => some l
    | _ => none)

/-- The value `rollbackId` reaches after folding `obsMin` over a list of
starting positions, as the per-document loop of `refreshPlugins` does. -/
def minStarted (ids : List Nat) : Option Nat :=
  ids.foldl obsMin none

/-- Number of rollback-request submissions in a refresh trace. -/
def sendRollbackCount (evs : List REvent) : Nat :=
  evs.countP (fun e =>
    match e with
    | .sendRollback _ => true
    | _ => false)

/-- Number of wake-record insertions in a refresh trace. -/
def wakeCount (evs : List REvent) : Nat :=
  evs.countP (fun e =>
    match e with
    | .insertWake _ _ _ => true
    | _ => false)

/-- Invariant maintained by the per-document loop of `refreshPlugins`:
the pending rollback id is the `obsMin`-fold of the starting positions
recorded so far, no wake record or rollback request has been emitted yet,
and every recorded starting position is the document's persisted id
clamped at the rollback floor. -/
def refreshInv (rollbackFloor : Nat) (acc : RefreshAcc) : Prop :=
  acc.rollbackId = minStarted (startedIds acc.events)
  ∧ sendRollbackCount acc.events = 0
  ∧ wakeCount acc.events = 0
  ∧ ∀ n p l, REvent.pluginStarted n p l ∈ acc.events →
      l = startPluginLastId p rollbackFloor

theorem startedIds_append (a b : List REvent) :
    startedIds (a ++ b) = startedIds a ++ startedIds b := by
  simp [startedIds, List.filterMap_append]

theorem minStarted_append_one (ids : List Nat) (l : Nat) :
    minStarted (ids ++ [l]) = obsMin (minStarted ids) l := by
  simp [minStarted, List.foldl_append]

theorem refreshStart_inv (registered : String → Bool) (rollbackFloor : Nat)
    (acc : RefreshAcc) (info : PluginInfo) (h : refreshInv rollbackFloor acc) :
    refreshInv rollbackFloor (refreshStart registered rollbackFloor acc info) := by
  obtain ⟨h1, h2, h3, h4⟩ := h
  unfold refreshStart
  cases hsp : startPlugin registered rollbackFloor info with
  | none => exact ⟨h1, h2, h3, h4⟩
  | some st =>
    have hlast : st.lastId = startPluginLastId info.lastId rollbackFloor := by
      unfold startPlugin at hsp
      split at hsp
      · injection hsp with hsp2; rw [← hsp2]
      · cases hsp
    refine ⟨?_, ?_, ?_, ?_⟩
    · show obsMin acc.rollbackId st.lastId = _
      rw [startedIds_append,
        show startedIds [REvent.pluginStarted st.name info.lastId st.lastId]
          = [st.lastId] from rfl,
        minStarted_append_one, h1]
    · show sendRollbackCount (acc.events ++ _) = 0
      unfold sendRollbackCount at *
      rw [List.countP_append, h2]
      rfl
    · show wakeCount (acc.events ++ _) = 0
      unfold wakeCount at *
      rw [List.countP_append, h3]
      rfl
    · intro n p l hmem
      rcases List.mem_append.mp hmem with hm | hm
      · exact h4 n p l hm
      · simp only [List.mem_singleton, REvent.pluginStarted.injEq] at hm
        rw [hm.2.2, hm.2.1]
        exact hlast

theorem refreshStep_inv (enabled registered : String → Bool)
    (rollbackFloor : Nat) (acc : RefreshAcc) (info : PluginInfo)
    (h : refreshInv rollbackFloor acc) :
    refreshInv rollbackFloor (refreshStep enabled registered rollbackFloor acc info) := by
  obtain ⟨h1, h2, h3, h4⟩ := h
  unfold refreshStep
  split
  · exact ⟨h1, h2, h3, h4⟩
  · cases hlk : lookupRun acc.running info.name with
    | some st =>
      simp only [hlk]
      split
      · exact ⟨h1, h2, h3, h4⟩
      · apply refreshStart_inv
        refine ⟨?_, ?_, ?_, ?_⟩
        · show acc.rollbackId = _
          rw [startedIds_append,
            show startedIds [REvent.pluginStopped info.name] = [] from rfl,
            List.append_nil]
          exact h1
        · show sendRollbackCount (acc.events ++ _) = 0
          unfold sendRollbackCount at *
          rw [List.countP_append, h2]
          rfl
        · show wakeCount (acc.events ++ _) = 0
          unfold wakeCount at *
          rw [List.countP_append, h3]
          rfl
        · intro n p l hmem
          rcases List.mem_append.mp hmem with hm | hm
          · exact h4 n p l hm
          · simp at hm
    | none =>
      simp only [hlk]
      exact refreshStart_inv registered rollbackFloor _ info ⟨h1, h2, h3, h4⟩

theorem foldl_refreshStep_inv (enabled registered : String → Bool)
    (rollbackFloor : Nat) (infos : List PluginInfo) :
    ∀ acc : RefreshAcc, refreshInv rollbackFloor acc →
      refreshInv rollbackFloor
        (infos.foldl (refreshStep enabled registered rollbackFloor) acc) := by
  induction infos with
  | nil => exact fun acc h => h
  | cons i is ih =>
    intro acc h
    rw [List.foldl_cons]
    exact ih _ (refreshStep_inv enabled registered rollbackFloor acc i h)

theorem refreshMain_inv (enabled registered : String → Bool)
    (rollbackFloor : Nat) (running : List RunState) (infos : List PluginInfo) :
    refreshInv rollbackFloor (refreshMain enabled registered rollbackFloor running infos) := by
  unfold refreshMain
  apply foldl_refreshStep_inv
  refine ⟨rfl, rfl, rfl, ?_⟩
  intro n p l hm
  cases hm

theorem stoppedMap_startedIds : ∀ (l : List RunState),
    startedIds (l.map fun st => REvent.pluginStopped st.name) = []
  | [] => rfl
  | x :: xs => by
    rw [List.map_cons]
    show startedIds (REvent.pluginStopped x.name :: _) = []
    unfold startedIds
    rw [List.filterMap_cons]
    exact stoppedMap_startedIds xs

theorem stoppedMap_sendRollbackCount (l : List RunState) :
    sendRollbackCount (l.map fun st => REvent.pluginStopped st.name) = 0 := by
  unfold sendRollbackCount
  rw [List.countP_eq_zero]
  intro e he
  rcases List.mem_map.mp he with ⟨st, _, hEq⟩
  rw [← hEq]
  simp

theorem stoppedMap_wakeCount (l : List RunState) :
    wakeCount (l.map fun st => REvent.pluginStopped st.name) = 0 := by
  unfold wakeCount
  rw [List.countP_eq_zero]
  intro e he
  rcases List.mem_map.mp he with ⟨st, _, hEq⟩
  rw [← hEq]
  simp

theorem stoppedMap_no_started (l : List RunState) (n : String) (p : Option Nat)
    (k : Nat) :
    REvent.pluginStarted n p k ∉ l.map (fun st => REvent.pluginStopped st.name) := by
  intro hm
  rcases List.mem_map.mp hm with ⟨st, _, hEq⟩
  cases hEq

theorem refreshSweep_inv (rollbackFloor known : Nat) (acc : RefreshAcc)
    (h : refreshInv rollbackFloor acc) :
    refreshInv rollbackFloor (refreshSweep known acc) := by
  obtain ⟨h1, h2, h3, h4⟩ := h
  unfold refreshSweep
  split
  · refine ⟨?_, ?_, ?_, ?_⟩
    · show acc.rollbackId = _
      rw [startedIds_append, stoppedMap_startedIds, List.append_nil]
      exact h1
    · show sendRollbackCount (acc.events ++ _) = 0
      unfold sendRollbackCount at *
      rw [List.countP_append, h2, Nat.zero_add]
      exact stoppedMap_sendRollbackCount _
    · show wakeCount (acc.events ++ _) = 0
      unfold wakeCount at *
      rw [List.countP_append, h3, Nat.zero_add]
      exact stoppedMap_wakeCount _
    · intro n p l hmem
      rcases List.mem_append.mp hmem with hm | hm
      · exact h4 n p l hm
      · exact absurd hm (stoppedMap_no_started _ n p l)
  · exact ⟨h1, h2, h3, h4⟩

theorem foldl_obsMin_some (xs : List Nat) (v : Nat) :
    xs.foldl obsMin (some v) = some (xs.foldl min v) := by
  induction xs generalizing v with
  | nil => rfl
  | cons x xs ih =>
    rw [List.foldl_cons, List.foldl_cons,
      show obsMin (some v) x = some (min v x) by
        show (if v > x then some x else some v) = _
        split <;> exact congrArg some (by omega)]
    exact ih (min v x)

theorem minStarted_cons (x : Nat) (xs : List Nat) :
    minStarted (x :: xs) = some (xs.foldl min x) := by
  unfold minStarted
  rw [List.foldl_cons]
  exact foldl_obsMin_some xs x

theorem minStarted_eq_none (ids : List Nat) (h : minStarted ids = none) :
    ids = [] := by
  cases ids with
  | nil => rfl
  | cons x xs => rw [minStarted_cons] at h; cases h

theorem foldl_min_le (xs : List Nat) (v : Nat) : xs.foldl min v ≤ v := by
  induction xs generalizing v with
  | nil => exact Nat.le_refl v
  | cons x xs ih =>
    rw [List.foldl_cons]
    exact Nat.le_trans (ih (min v x)) (min_le_left v x)

theorem foldl_min_le_mem : ∀ (xs : List Nat) (v l : Nat), l ∈ xs →
    xs.foldl min v ≤ l
  | [], _, _, h => absurd h (List.not_mem_nil _)
  | x :: xs, v, l, h => by
    rw [List.foldl_cons]
    rcases List.mem_cons.mp h with h | h
    · subst h
      exact Nat.le_trans (foldl_min_le xs _) (min_le_right v l)
    · exact foldl_min_le_mem xs (min v x) l h

theorem foldl_min_mem (xs : List Nat) (v : Nat) :
    xs.foldl min v = v ∨ xs.foldl min v ∈ xs := by
  induction xs generalizing v with
  | nil => exact Or.inl rfl
  | cons x xs ih =>
    rw [List.foldl_cons]
    rcases ih (min v x) with h | h
    · rw [h]
      rcases le_total v x with hle | hle
      · exact Or.inl (min_eq_left hle)
      · exact Or.inr (by rw [min_eq_right hle]; exact List.mem_cons_self x xs)
    · exact Or.inr (List.mem_cons_of_mem x h)

theorem refreshFinish_spec (rollbackFloor : Nat) (acc : RefreshAcc)
    (h : refreshInv rollbackFloor acc)
    (hs : startedIds (refreshFinish acc).2 ≠ []) :
    ∃ r evs0,
      (refreshFinish acc).2
        = evs0 ++ [.insertWake rollbackAccount cmdPong rollbackText, .sendRollback r]
      ∧ sendRollbackCount evs0 = 0
      ∧ wakeCount evs0 = 0
      ∧ r ∈ startedIds (refreshFinish acc).2
      ∧ (∀ l ∈ startedIds (refreshFinish acc).2, r ≤ l)
      ∧ (∀ n p l, REvent.pluginStarted n p l ∈ (refreshFinish acc).2 →
          l = startPluginLastId p rollbackFloor) := by
  obtain ⟨h1, h2, h3, h4⟩ := h
  cases hr : acc.rollbackId with
  | none =>
    exfalso
    apply hs
    have he : (refreshFinish acc).2 = acc.events := by unfold refreshFinish; rw [hr]
    rw [he]
    exact minStarted_eq_none _ (h1.symm.trans hr)
  | some r =>
    have he : (refreshFinish acc).2
        = acc.events ++ [REvent.insertWake rollbackAccount cmdPong rollbackText,
            REvent.sendRollback r] := by
      unfold refreshFinish; rw [hr]
    have hm : minStarted (startedIds acc.events) = some r := h1.symm.trans hr
    have hsi : startedIds (refreshFinish acc).2 = startedIds acc.events := by
      rw [he, startedIds_append,
        show startedIds [REvent.insertWake rollbackAccount cmdPong rollbackText,
          REvent.sendRollback r] = [] from rfl, List.append_nil]
    refine ⟨r, acc.events, he, h2, h3, ?_, ?_, ?_⟩
    · rw [hsi]
      cases hids : startedIds acc.events with
      | nil => rw [hids] at hm; exact Option.noConfusion hm
      | cons x xs =>
        rw [hids, minStarted_cons] at hm
        injection hm with hm
        rcases foldl_min_mem xs x with hmm | hmm
        · rw [← hm, hmm]; exact List.mem_cons_self x xs
        · rw [← hm]; exact List.mem_cons_of_mem x hmm
    · intro l hl
      rw [hsi] at hl
      cases hids : startedIds acc.events with
      | nil => rw [hids] at hl; exact absurd hl (List.not_mem_nil _)
      | cons x xs =>
        rw [hids, minStarted_cons] at hm
        injection hm with hm
        rw [← hm]
        rw [hids] at hl
        rcases List.mem_cons.mp hl with hl | hl
        · subst hl; exact foldl_min_le xs l
        · exact foldl_min_le_mem xs x l hl
    · intro n p l hmem
      rw [he] at hmem
      rcases List.mem_append.mp hmem with hmm | hmm
      · exact h4 n p l hmm
      · rcases List.mem_cons.mp hmm with hmm | hmm
        · exact REvent.noConfusion hmm
        · rcases List.mem_cons.mp hmm with hmm | hmm
          · exact REvent.noConfusion hmm
          · exact absurd hmm (List.not_mem_nil _)

/-- Counterexample to C3: a refresh pass that starts one plugin whose
persisted lastSeenId is 5 while the rollback floor (now − rollbackLimit)
is 10 submits a rollback request with value 10 — the clamped starting
position — and not 5, the minimum persisted lastSeenId among the started
plugins, as the claim states. -/
theorem C3_min_persisted_counterexample :
    (refreshPlugins (fun _ => true) (fun _ => true) 10 []
        [⟨"p", some 5, [], []⟩]).2
      = [.pluginStarted "p" (some 5) 10,
         .insertWake rollbackAccount cmdPong rollbackText, .sendRollback 10]
    ∧ REvent.sendRollback 5 ∉
        (refreshPlugins (fun _ => true) (fun _ => true) 10 []
          [⟨"p", some 5, [], []⟩]).2 := by
  decide

/-- C3 amended: whenever a refresh pass starts or restarts at least one
plugin, it emits — after all stop/start actions and nothing else — first
exactly one wake record insertion into the incoming log and then exactly
one rollback request, whose value is the minimum starting position among
all plugins (re)started in the pass, where each starting position is that
plugin's persisted lastSeenId clamped to be at least the rollback floor
(now − rollbackLimit). -/
theorem C3_wake_then_min_rollback (enabled registered : String → Bool)
    (rollbackFloor : Nat) (running : List RunState) (infos : List PluginInfo)
    (hs : startedIds
      (refreshPlugins enabled registered rollbackFloor running infos).2 ≠ []) :
    ∃ r evs0,
      (refreshPlugins enabled registered rollbackFloor running infos).2
        = evs0 ++ [.insertWake rollbackAccount cmdPong rollbackText, .sendRollback r]
      ∧ sendRollbackCount evs0 = 0
      ∧ wakeCount evs0 = 0
      ∧ r ∈ startedIds (refreshPlugins enabled registered rollbackFloor running infos).2
      ∧ (∀ l ∈ startedIds (refreshPlugins enabled registered rollbackFloor running infos).2,
          r ≤ l)
      ∧ (∀ n p l,
          REvent.pluginStarted n p l
              ∈ (refreshPlugins enabled registered rollbackFloor running infos).2 →
            l = startPluginLastId p rollbackFloor) :=
  refreshFinish_spec rollbackFloor _
    (refreshSweep_inv rollbackFloor running.length _
      (refreshMain_inv enabled registered rollbackFloor running infos)) hs

/-- Witness for the amended C3 at the pass of the counterexample: one
plugin started from persisted id 5 under floor 10. -/
theorem C3_wake_then_min_rollback_witness :
    ∃ r evs0,
      (refreshPlugins (fun _ => true) (fun _ => true) 10 []
          [⟨"p", some 5, [], []⟩]).2
        = evs0 ++ [.insertWake rollbackAccount cmdPong rollbackText, .sendRollback r]
      ∧ sendRollbackCount evs0 = 0
      ∧ wakeCount evs0 = 0
      ∧ r ∈ startedIds (refreshPlugins (fun _ => true) (fun _ => true) 10 []
          [⟨"p", some 5, [], []⟩]).2
      ∧ (∀ l ∈ startedIds (refreshPlugins (fun _ => true) (fun _ => true) 10 []
          [⟨"p", some 5, [], []⟩]).2, r ≤ l)
      ∧ (∀ n p l,
          REvent.pluginStarted n p l
              ∈ (refreshPlugins (fun _ => true) (fun _ => true) 10 []
                [⟨"p", some 5, [], []⟩]).2 →
            l = startPluginLastId p 10) :=
  C3_wake_then_min_rollback (fun _ => true) (fun _ => true) 10 []
    [⟨"p", some 5, [], []⟩] (by decide)

/-- Counterexample to C6: a running plugin at position 20 whose config
blob changes while its stored document carries persisted lastSeenId 5 is
stopped and restarted, but under rollback floor 10 the new instance's
dispatch position is 10, not the persisted 5 the claim promises. -/
theorem C6_position_counterexample :
    refreshPlugins (fun _ => true) (fun _ => true) 10
        [⟨"p", 20, [1], [2]⟩] [⟨"p", some 5, [3], [2]⟩]
      = ([⟨"p", 10, [3], [2]⟩],
         [.pluginStopped "p", .pluginStarted "p" (some 5) 10,
          .insertWake rollbackAccount cmdPong rollbackText, .sendRollback 10])
    ∧ ∀ st ∈ (refreshPlugins (fun _ => true) (fun _ => true) 10
        [⟨"p", 20, [1], [2]⟩] [⟨"p", some 5, [3], [2]⟩]).1,
        st.lastId ≠ 5 := by
  decide

/-- C6 amended: when a running plugin's config or targets blob changed,
the reconciliation step stops the old instance and starts a new one with
the same identity, whose dispatch position is the persisted lastSeenId of
the stored document clamped to be at least the rollback floor — preserved
exactly when the persisted id is present and not older than the floor,
and raised to the floor otherwise; it is never reset to zero when the
floor is positive. -/
theorem C6_restart_clamped_position (enabled registered : String → Bool)
    (rollbackFloor : Nat) (acc : RefreshAcc) (info : PluginInfo) (st : RunState)
    (hon : enabled info.name = true) (hreg : registered info.name = true)
    (hlk : lookupRun acc.running info.name = some st)
    (hch : pluginChanged st info = true) :
    (refreshStep enabled registered rollbackFloor acc info).running
      = removeRun acc.running info.name
        ++ [⟨info.name, startPluginLastId info.lastId rollbackFloor,
             info.config, info.targets⟩]
    ∧ (refreshStep enabled registered rollbackFloor acc info).events
      = acc.events ++ [.pluginStopped info.name,
          .pluginStarted info.name info.lastId
            (startPluginLastId info.lastId rollbackFloor)]
    ∧ (∀ v, info.lastId = some v → rollbackFloor ≤ v →
        startPluginLastId info.lastId rollbackFloor = v)
    ∧ (∀ v, info.lastId = some v → v < rollbackFloor →
        startPluginLastId info.lastId rollbackFloor = rollbackFloor)
    ∧ (info.lastId = none → startPluginLastId info.lastId rollbackFloor = rollbackFloor) := by
  unfold refreshStep
  rw [if_neg (by simp [hon])]
  simp only [hlk]
  rw [if_neg (by simp [hch])]
  unfold refreshStart startPlugin
  rw [hreg]
  simp only [if_pos rfl]
  refine ⟨rfl, by simp, ?_, ?_, ?_⟩
  · intro v hv hle
    unfold startPluginLastId
    rw [hv]
    simp only []
    rw [if_neg (by omega)]
  · intro v hv hlt
    unfold startPluginLastId
    rw [hv]
    simp only []
    rw [if_pos hlt]
  · intro hv
    unfold startPluginLastId
    rw [hv]

/-- Witness for the amended C6: a changed plugin whose persisted id 15 is
newer than floor 10 restarts at exactly 15 — the position is preserved. -/
theorem C6_restart_clamped_position_witness :
    (refreshStep (fun _ => true) (fun _ => true) 10
        ⟨[⟨"p", 20, [1], [2]⟩], [], 0, none, []⟩ ⟨"p", some 15, [3], [2]⟩).running
      = removeRun [⟨"p", 20, [1], [2]⟩] "p"
        ++ [⟨"p", startPluginLastId (some 15) 10, [3], [2]⟩]
    ∧ (refreshStep (fun _ => true) (fun _ => true) 10
        ⟨[⟨"p", 20, [1], [2]⟩], [], 0, none, []⟩ ⟨"p", some 15, [3], [2]⟩).events
      = [] ++ [.pluginStopped "p",
          .pluginStarted "p" (some 15) (startPluginLastId (some 15) 10)]
    ∧ (∀ v, (some 15 : Option Nat) = some v → 10 ≤ v →
        startPluginLastId (some 15) 10 = v)
    ∧ (∀ v, (some 15 : Option Nat) = some v → v < 10 →
        startPluginLastId (some 15) 10 = 10)
    ∧ ((some 15 : Option Nat) = none → startPluginLastId (some 15) 10 = 10) :=
  C6_restart_clamped_position (fun _ => true) (fun _ => true) 10
    ⟨[⟨"p", 20, [1], [2]⟩], [], 0, none, []⟩ ⟨"p", some 15, [3], [2]⟩
    ⟨"p", 20, [1], [2]⟩ rfl rfl (by decide) (by decide)

/-- The "sent:" marker checked by `strings.HasPrefix(msg.Text, "sent:")`
in `accountManager.loop`. -/
def sentMarker : List Char := ['s', 'e', 'n', 't', ':']

/-- Value of one lowercase-hex digit character. -/
def hexDigitVal (c : Char) : Option Nat :=
  if '0' ≤ c ∧ c ≤ '9' then some (c.toNat - 48)
  else if 'a' ≤ c ∧ c ≤ 'f' then some (c.toNat - 87)
  else none

/-- Modelled from the spec: recovery of "the record's id in a recoverable
encoding" (§4.4) from a confirmation echo — `bson.ObjectIdHex(msg.Text[5:])`
in `accountManager.loop`; the bson hex decoding itself lives outside the
repository slice under study. -/
def hexToNat (t : List Char) : Option Nat :=
  match t with
  | [] => none
  | _ =>
    t.foldl (fun acc c =>
      match acc, hexDigitVal c with
      | some a, some d => some (a * 16 + d)
      | _, _ => none) (some 0)

/-- AMState is the persistent state touched by `accountManager.loop`: the
per-account confirmed positions (the `lastid` field of the `accounts`
documents) and the incoming collection. -/
structure AMState where
  accounts : List (String × Nat)
  incoming : List Message

/-- The conditional update
`accounts.Update({name: msg.Account}, {$set: {lastid: lastId}})` of
`accountManager.loop`: only the matching account's position changes. -/
def setAccountLastId (accounts : List (String × Nat)) (name : String)
    (id : Nat) : List (String × Nat) :=
  accounts.map (fun p => if p.1 = name then (p.1, id) else p)

/-- The `case msg := <-am.incoming` arm of `accountManager.loop`: a pong
whose text starts with "sent:" advances the account's persisted confirmed
position to the decoded id; any other record is inserted into the
incoming collection. -/
def accountLoopStep (s : AMState) (msg : Message) : AMState :=
  if msg.command = cmdPong then
    if sentMarker.isPrefixOf msg.text then
      match hexToNat (msg.text.drop 5) with
      | some lastId =>
        { s with accounts := setAccountLastId s.accounts msg.account lastId }
      | none => s
    else s
  else { s with incoming := s.incoming ++ [msg] }

/-- The query of `accountManager.tail` (`_id > lastId`, `account == a`,
natural order): the records the outbound tail hands to the client, in
store order. -/
def accountTail (acct : String) (lastId : Nat) (outgoing : List Message) :
    List Message :=
  outgoing.filter (fun m => decide (lastId < m.id ∧ m.account = acct))

/-- C5: the outbound tail delivers, in store order, exactly the records of
the account with id past the persisted confirmed position — so after a
restart an unconfirmed record (id above the position) is delivered again
before any newer record, while a record whose id is at or below the
position (in particular one whose echo advanced the position to its id)
is not delivered; the position is advanced to the id decoded from a
confirmation echo exactly when a pong carrying the "sent:" text arrives,
and non-pong records leave the positions untouched. -/
theorem C5_outbound_confirmed_position (acct : String) (p : Nat)
    (store : List Message) (s : AMState) (msg r : Message) (n : Nat)
    (hsorted : store.Pairwise (fun a b => a.id < b.id)) :
    (∀ m ∈ accountTail acct p store, p < m.id ∧ m.account = acct)
    ∧ (accountTail acct p store).Sublist store
    ∧ (accountTail acct p store).Pairwise (fun a b => a.id < b.id)
    ∧ (r ∈ store → r.account = acct → p < r.id → r ∈ accountTail acct p store)
    ∧ (r.id ≤ p → r ∉ accountTail acct p store)
    ∧ (msg.command = cmdPong → sentMarker.isPrefixOf msg.text = true →
        hexToNat (msg.text.drop 5) = some n →
        (accountLoopStep s msg).accounts = setAccountLastId s.accounts msg.account n
        ∧ (accountLoopStep s msg).incoming = s.incoming)
    ∧ (msg.command ≠ cmdPong → (accountLoopStep s msg).accounts = s.accounts) := by
  refine ⟨?_, List.filter_sublist store,
    List.Pairwise.sublist (List.filter_sublist store) hsorted, ?_, ?_, ?_, ?_⟩
  · intro m hm
    have := List.mem_filter.mp hm
    exact of_decide_eq_true this.2
  · intro hr hacct hp
    exact List.mem_filter.mpr ⟨hr, decide_eq_true ⟨hp, hacct⟩⟩
  · intro hle hm
    have := of_decide_eq_true (List.mem_filter.mp hm).2
    omega
  · intro hcmd hpre hdec
    unfold accountLoopStep
    rw [if_pos hcmd, if_pos hpre, hdec]
    exact ⟨rfl, rfl⟩
  · intro hcmd
    unfold accountLoopStep
    rw [if_neg hcmd]

/-- Witness for C5: a two-record outbound store for account "a" at
position 1 delivers exactly the records with ids 3 and 7 in order, and the
echo "sent:7" advances account "a" from 1 to 7. -/
theorem C5_outbound_confirmed_position_witness :
    (∀ m ∈ accountTail "a" 1 [⟨1, "a", "PRIVMSG", [], "", ""⟩,
        ⟨3, "a", "PRIVMSG", [], "", ""⟩, ⟨7, "a", "PRIVMSG", [], "", ""⟩],
        1 < m.id ∧ m.account = "a")
    ∧ (accountTail "a" 1 [⟨1, "a", "PRIVMSG", [], "", ""⟩,
        ⟨3, "a", "PRIVMSG", [], "", ""⟩, ⟨7, "a", "PRIVMSG", [], "", ""⟩]).Sublist
        [⟨1, "a", "PRIVMSG", [], "", ""⟩,
         ⟨3, "a", "PRIVMSG", [], "", ""⟩, ⟨7, "a", "PRIVMSG", [], "", ""⟩]
    ∧ (accountTail "a" 1 [⟨1, "a", "PRIVMSG", [], "", ""⟩,
        ⟨3, "a", "PRIVMSG", [], "", ""⟩,
        ⟨7, "a", "PRIVMSG", [], "", ""⟩]).Pairwise (fun a b => a.id < b.id)
    ∧ (⟨3, "a", "PRIVMSG", [], "", ""⟩ ∈ [⟨1, "a", "PRIVMSG", [], "", ""⟩,
          (⟨3, "a", "PRIVMSG", [], "", ""⟩ : Message),
          ⟨7, "a", "PRIVMSG", [], "", ""⟩] →
        Message.account ⟨3, "a", "PRIVMSG", [], "", ""⟩ = "a" →
        1 < Message.id ⟨3, "a", "PRIVMSG", [], "", ""⟩ →
        (⟨3, "a", "PRIVMSG", [], "", ""⟩ : Message)
          ∈ accountTail "a" 1 [⟨1, "a", "PRIVMSG", [], "", ""⟩,
            ⟨3, "a", "PRIVMSG", [], "", ""⟩, ⟨7, "a", "PRIVMSG", [], "", ""⟩])
    ∧ (Message.id ⟨3, "a", "PRIVMSG", [], "", ""⟩ ≤ 1 →
        (⟨3, "a", "PRIVMSG", [], "", ""⟩ : Message)
          ∉ accountTail "a" 1 [⟨1, "a", "PRIVMSG", [], "", ""⟩,
            ⟨3, "a", "PRIVMSG", [], "", ""⟩, ⟨7, "a", "PRIVMSG", [], "", ""⟩])
    ∧ (Message.command ⟨0, "a", cmdPong, ['s', 'e', 'n', 't', ':', '7'], "", ""⟩ = cmdPong →
        sentMarker.isPrefixOf
          (Message.text ⟨0, "a", cmdPong, ['s', 'e', 'n', 't', ':', '7'], "", ""⟩) = true →
        hexToNat ((Message.text ⟨0, "a", cmdPong, ['s', 'e', 'n', 't', ':', '7'], "", ""⟩).drop 5)
          = some 7 →
        (accountLoopStep ⟨[("a", 1)], []⟩
            ⟨0, "a", cmdPong, ['s', 'e', 'n', 't', ':', '7'], "", ""⟩).accounts
          = setAccountLastId [("a", 1)] "a" 7
        ∧ (accountLoopStep ⟨[("a", 1)], []⟩
            ⟨0, "a", cmdPong, ['s', 'e', 'n', 't', ':', '7'], "", ""⟩).incoming = [])
    ∧ (Message.command ⟨0, "a", cmdPong, ['s', 'e', 'n', 't', ':', '7'], "", ""⟩ ≠ cmdPong →
        (accountLoopStep ⟨[("a", 1)], []⟩
          ⟨0, "a", cmdPong, ['s', 'e', 'n', 't', ':', '7'], "", ""⟩).accounts = [("a", 1)]) :=
  C5_outbound_confirmed_position "a" 1
    [⟨1, "a", "PRIVMSG", [], "", ""⟩, ⟨3, "a", "PRIVMSG", [], "", ""⟩,
     ⟨7, "a", "PRIVMSG", [], "", ""⟩]
    ⟨[("a", 1)], []⟩ ⟨0, "a", cmdPong, ['s', 'e', 'n', 't', ':', '7'], "", ""⟩
    ⟨3, "a", "PRIVMSG", [], "", ""⟩ 7 (by decide)

/-- An abstract live LDAP connection handle, standing for the non-nil
`ldap.Conn` returned by `ManagedConn.Conn()`. -/
inductive LConn where
  | live (id : Nat)
deriving DecidableEq, Repr

/-- The error text built by `fmt.Errorf("LDAP connection %q not found",
name)` in `pluginManager.ldapConn` (plugin.go). -/
def ldapConnErr (name : String) : String :=
  "LDAP connection \"" ++ name ++ "\" not found"

/-- The body of `pluginManager.ldapConn` (plugin.go): a call after the
manager stopped panics (modelled as `none`); otherwise the name is looked
up in the mutex-guarded `ldapConns` table, `Conn()` is taken from the
managed connection found (an entry's `Option LConn`), and a missing entry
or a missing live connection falls through to the "not found" error. -/
def ldapConn (alive : Bool) (conns : List (String × Option LConn))
    (name : String) : Option (Except String LConn) :=
  if alive = false then none
  else
    some (
      match conns.find? (fun p => p.1 == name) with
      | some (_, some c) => .ok c
      | _ => .error (ldapConnErr name))

/-- C9: while the manager is alive, a plugin's request for the LDAP
connection of a name returns the live managed connection when the name is
present in the current lookup table (with a live connection available),
and an error stating the connection was not found when the name is
absent; both outcomes are immediate values of the lookup. -/
theorem C9_ldap_lookup (conns : List (String × Option LConn)) (name : String)
    (c : LConn) :
    (∀ found : String × Option LConn,
        conns.find? (fun p => p.1 == name) = some found → found.2 = some c →
        ldapConn true conns name = some (.ok c))
    ∧ (conns.find? (fun p => p.1 == name) = none →
        ldapConn true conns name = some (.error (ldapConnErr name)))
    ∧ ldapConn false conns name = none := by
  refine ⟨?_, ?_, rfl⟩
  · intro found hf hc
    obtain ⟨n2, oc⟩ := found
    simp only at hc
    subst hc
    unfold ldapConn
    rw [if_neg (by simp)]
    rw [hf]
  · intro hf
    unfold ldapConn
    rw [if_neg (by simp)]
    rw [hf]

/-- Witness for C9: a table holding only name "dir" with a live handle
answers "dir" with that handle and "other" with the not-found error, and
a stopped manager yields no result. -/
theorem C9_ldap_lookup_witness :
    ldapConn true [("dir", some (.live 1))] "dir" = some (.ok (.live 1))
    ∧ ldapConn true [("dir", some (.live 1))] "other"
        = some (.error (ldapConnErr "other"))
    ∧ ldapConn false [("dir", some (.live 1))] "other" = none :=
  ⟨(C9_ldap_lookup [("dir", some (.live 1))] "dir" (.live 1)).1
      ("dir", some (.live 1)) (by decide) rfl,
    (C9_ldap_lookup [("dir", some (.live 1))] "other" (.live 1)).2.1 (by decide),
    (C9_ldap_lookup [("dir", some (.live 1))] "other" (.live 1)).2.2⟩

/-- The byte values of the lowercase hex digit table `hex` of
`ldap/ldap.go` ("0123456789abcdef"). -/
def hexChars : List Nat :=
  [48, 49, 50, 51, 52, 53, 54, 55, 56, 57, 97, 98, 99, 100, 101, 102]

/-- Indexing into the hex table, `hex[n]` in `ldap/ldap.go`. -/
def hexAt (n : Nat) : Nat := hexChars.getD n 0

/-- The `mustEscape` predicate of `ldap/ldap.go`. -/
def mustEscape (c : Nat) : Bool :=
  decide (c > 0x7f) || c == 40 || c == 41 || c == 92 || c == 42 || c == 0

/-- The escaping loop of `EscapeFilter` (ldap/ldap.go): an escaped byte
becomes a backslash (92) followed by `hex[c>>4]` and `hex[c&0xf]`, any
other byte is copied. -/
def escapeBytes : List Nat → List Nat
  | [] => []
  | c :: rest =>
    (if mustEscape c then [92, hexAt (c / 16), hexAt (c % 16)] else [c])
      ++ escapeBytes rest

/-- `EscapeFilter` (ldap/ldap.go): when no byte needs escaping the input
string is returned as is, otherwise the escaping loop builds the escaped
byte string. -/
def EscapeFilter (s : List Nat) : List Nat :=
  if s.countP mustEscape = 0 then s else escapeBytes s

theorem escapeBytes_eq_flatMap (s : List Nat) :
    escapeBytes s
      = s.flatMap (fun c =>
          if mustEscape c then [92, hexAt (c / 16), hexAt (c % 16)] else [c]) := by
  induction s with
  | nil => rfl
  | cons c cs ih => rw [List.flatMap_cons, ← ih]; rfl

theorem escapeBytes_id (s : List Nat) (h : s.countP mustEscape = 0) :
    escapeBytes s = s := by
  induction s with
  | nil => rfl
  | cons c cs ih =>
    rw [List.countP_cons] at h
    have hc : mustEscape c = false := by
      cases hmc : mustEscape c
      · rfl
      · rw [hmc] at h; simp at h
    have hcs : cs.countP mustEscape = 0 := by omega
    unfold escapeBytes
    rw [hc, ih hcs]
    rfl

theorem escapeBytes_length (s : List Nat) :
    (escapeBytes s).length = s.length + 2 * s.countP mustEscape := by
  induction s with
  | nil => rfl
  | cons c cs ih =>
    unfold escapeBytes
    rw [List.length_append, ih, List.countP_cons]
    cases hmc : mustEscape c <;> simp [hmc] <;> omega

theorem hexAt_mem (n : Nat) (h : n < 16) : hexAt n ∈ hexChars := by
  interval_cases n <;> decide

/-- C10: EscapeFilter replaces exactly the bytes `mustEscape` selects —
those above 0x7f, the zero byte, and `(`, `)`, `\`, `*` — by a backslash
followed by the two lowercase hex digits of the byte, copies every other
byte in order, grows the length by twice the number of such bytes, and
returns the input itself when no byte needs escaping. -/
theorem C10_escape_filter (s : List Nat) (hbytes : ∀ c ∈ s, c < 256) :
    EscapeFilter s
      = s.flatMap (fun c =>
          if mustEscape c then [92, hexAt (c / 16), hexAt (c % 16)] else [c])
    ∧ (EscapeFilter s).length = s.length + 2 * s.countP mustEscape
    ∧ (s.countP mustEscape = 0 → EscapeFilter s = s)
    ∧ (∀ c ∈ s, mustEscape c = true
        ↔ (c > 0x7f ∨ c = 40 ∨ c = 41 ∨ c = 92 ∨ c = 42 ∨ c = 0))
    ∧ (∀ c ∈ s, mustEscape c = true →
        hexAt (c / 16) ∈ hexChars ∧ hexAt (c % 16) ∈ hexChars) := by
  have hmain : EscapeFilter s = escapeBytes s := by
    unfold EscapeFilter
    split
    · rename_i h
      rw [escapeBytes_id s h]
    · rfl
  refine ⟨?_, ?_, ?_, ?_, ?_⟩
  · rw [hmain]; exact escapeBytes_eq_flatMap s
  · rw [hmain]; exact escapeBytes_length s
  · intro h; unfold EscapeFilter; rw [if_pos h]
  · intro c _
    unfold mustEscape
    simp only [Bool.or_eq_true, decide_eq_true_eq, beq_iff_eq]
    tauto
  · intro c hc _
    have := hbytes c hc
    exact ⟨hexAt_mem _ (by omega), hexAt_mem _ (by omega)⟩

/-- Witness for C10 on the string "a(b" (bytes [97, 40, 98]): only the
parenthesis is escaped, to backslash-28. -/
theorem C10_escape_filter_witness :
    EscapeFilter [97, 40, 98]
      = [97, 40, 98].flatMap (fun c =>
          if mustEscape c then [92, hexAt (c / 16), hexAt (c % 16)] else [c])
    ∧ (EscapeFilter [97, 40, 98]).length
      = [97, 40, 98].length + 2 * [97, 40, 98].countP mustEscape
    ∧ ([97, 40, 98].countP mustEscape = 0 → EscapeFilter [97, 40, 98] = [97, 40, 98])
    ∧ (∀ c ∈ [97, 40, 98], mustEscape c = true
        ↔ (c > 0x7f ∨ c = 40 ∨ c = 41 ∨ c = 92 ∨ c = 42 ∨ c = 0))
    ∧ (∀ c ∈ [97, 40, 98], mustEscape c = true →
        hexAt (c / 16) ∈ hexChars ∧ hexAt (c % 16) ∈ hexChars) :=
  C10_escape_filter [97, 40, 98] (by decide)
